import Mathlib

/-
Verification of the trebbbble-backend song-identification pipeline
(src/scripts/main.py) against its natural-language specification.

Modelling conventions:
- Python strings are modelled as lists of bytes (List Nat), written with
  strBytes for ASCII literals.
- The arithmetic in get_color and get_text_color is performed by the
  program in IEEE-754 binary64 (numpy float64 and CPython floats).  We
  model that arithmetic exactly: fl rounds a rational to the nearest
  binary64 value (ties to even), and fadd/fsub/fmul/fdiv are the exactly
  rounded operations.  All values reached by the program lie well inside
  the normal range covered by the model (see flCount).
- External collaborators (yt-dlp, the ACRCloud HTTP API, the iTunes
  search API, the image fetch/decode/save path) are oracles packed in a
  World value; each pipeline stage also returns the list of observable
  events it performed, so that claims about which stages run can be
  stated.
-/

abbrev Bytes := List Nat

def strBytes (s : String) : Bytes := s.data.map Char.toNat

-- quick sanity check that string literals reduce
example : strBytes "NO" = [78, 79] := rfl

/-! ### Exact model of IEEE-754 binary64 arithmetic

fl x is the binary64 value nearest to the rational x (ties to even),
valid for x = 0 or 2 ^ (-20) <= |x| < 2 ^ 40, which covers every value
produced in get_color and get_text_color (channel values are at most
255, vibrancies at most 43350, luminances at least 0.114 / 255 when
nonzero). -/

/-- Floor of a nonnegative rational (Int division truncates toward zero,
which is the floor for nonnegative arguments). -/
def qfloor (q : ℚ) : ℤ := q.num / (q.den : ℤ)

/-- Round a nonnegative rational to the nearest integer, ties to even. -/
def roundHalfEven (y : ℚ) : ℤ :=
  let n := qfloor y
  let f := y - (n : ℚ)
  if f < 1/2 then n
  else if 1/2 < f then n + 1
  else if n % 2 = 0 then n else n + 1

/-- 2 ^ (i - 20) as a rational, for i : Nat below 61. -/
def twoPow (i : ℕ) : ℚ := ((2 ^ i : ℕ) : ℚ) / ((2 ^ 20 : ℕ) : ℚ)

/-- Number of exponents e in [-20, 40] with 2 ^ e <= x; for
2 ^ (-20) <= x < 2 ^ 40 the binade of x is k - 20 where k = flCount x,
that is 2 ^ (k - 21) <= x < 2 ^ (k - 20). -/
def flCount (x : ℚ) : ℕ := ((List.range 61).filter (fun i => twoPow i ≤ x)).length

/-- Round a nonnegative rational to binary64 (53-bit significand). -/
def flPos (x : ℚ) : ℚ :=
  if x = 0 then 0
  else
    let p := 73 - flCount x
    let y := x * ((2 ^ p : ℕ) : ℚ)
    ((roundHalfEven y : ℤ) : ℚ) / ((2 ^ p : ℕ) : ℚ)

/-- Round a rational to binary64 (round to nearest, ties to even). -/
def fl (x : ℚ) : ℚ := if x < 0 then -flPos (-x) else flPos x

/-- Exactly rounded binary64 addition. -/
def fadd (a b : ℚ) : ℚ := fl (a + b)

/-- Exactly rounded binary64 subtraction. -/
def fsub (a b : ℚ) : ℚ := fl (a - b)

/-- Exactly rounded binary64 multiplication. -/
def fmul (a b : ℚ) : ℚ := fl (a * b)

/-- Exactly rounded binary64 division. -/
def fdiv (a b : ℚ) : ℚ := fl (a / b)

/-! ### Percent encoding and the search URLs (get_song_urls)

urllib.parse.quote keeps ASCII letters, digits, the characters _ . - ~
and (by the default safe parameter) the slash, and renders every other
byte as a percent sign followed by two uppercase hex digits.  Strings
are handled at the byte level (UTF-8); quote operates byte by byte. -/

/-- Bytes urllib.parse.quote leaves unescaped with the default safe="/":
letters, digits, underscore, period, hyphen, tilde and slash. -/
def quoteSafe (b : ℕ) : Bool :=
  (65 ≤ b && b ≤ 90) || (97 ≤ b && b ≤ 122) || (48 ≤ b && b ≤ 57) ||
    b == 95 || b == 46 || b == 45 || b == 126 || b == 47

/-- Uppercase hex digit (as a byte) of a value below 16. -/
def hexDigit (d : ℕ) : ℕ := if d < 10 then 48 + d else 55 + d

/-- Percent-encoding of a single byte as in urllib.parse.quote. -/
def quoteByte (b : ℕ) : Bytes :=
  if quoteSafe b then [b] else [37, hexDigit (b / 16), hexDigit (b % 16)]

/-- urllib.parse.quote on a byte string, safe="/" (the default). -/
def quote (s : Bytes) : Bytes := s.flatMap quoteByte

/-- get_song_urls from src/scripts/main.py: three search links built from
the percent-encoded "title artist" query (32 is the space byte). -/
def get_song_urls (title artist : Bytes) : Bytes × Bytes × Bytes :=
  let encoded_query := quote (title ++ 32 :: artist)
  (strBytes "https://open.spotify.com/search/" ++ encoded_query,
   strBytes "https://music.youtube.com/search?q=" ++ encoded_query,
   strBytes "https://music.apple.com/us/search?term=" ++ encoded_query)

/-- Number of positions at which pat occurs as a contiguous substring
of s (counting every starting position). -/
def countOccur (pat s : Bytes) : ℕ :=
  ((List.range (s.length + 1)).filter (fun p => pat.isPrefixOf (s.drop p))).length

/-! ### The color analyzer (get_color)

A decoded RGB image is at least one pixel; pixels are uint8 triples,
flattened in row-major (C) order, which is exactly what
np.array(image).reshape((-1, 3)) produces.  np.mean sums the three
channels left to right and divides by 3; the vibrancy is summed left to
right as well; every intermediate is a float64, modelled by fl.
np.argmax returns the first index attaining the maximum value. -/

abbrev Channel := Fin 256

abbrev Pixel := Channel × Channel × Channel

/-- A decoded RGB image: its pixels flattened in row-major order, known
to be nonempty (a decoded image has at least one pixel). -/
structure Img where
  px0 : Pixel
  rest : List Pixel
deriving DecidableEq

def pixelList (img : Img) : List Pixel := img.px0 :: img.rest

/-- The vibrancy of one pixel exactly as the numpy code computes it in
float64: gray = mean of the channels, vibrancy = sum of squared
channel deviations, every operation rounded. -/
def flVibrancy (p : Pixel) : ℚ :=
  let r : ℚ := ((p.1 : ℕ) : ℚ)
  let g : ℚ := ((p.2.1 : ℕ) : ℚ)
  let b : ℚ := ((p.2.2 : ℕ) : ℚ)
  let gray := fdiv (fadd (fadd r g) b) 3
  fadd (fadd (fmul (fsub r gray) (fsub r gray)) (fmul (fsub g gray) (fsub g gray)))
    (fmul (fsub b gray) (fsub b gray))

/-- Modelled from the spec: the vibrancy in exact arithmetic, "sum over
the three channels of (channel minus the arithmetic mean of the three
channels) squared".  Used to compare the spec reading of get_color with
the float64 computation the code performs. -/
def vibrancySpec (p : Pixel) : ℚ :=
  let r : ℚ := ((p.1 : ℕ) : ℚ)
  let g : ℚ := ((p.2.1 : ℕ) : ℚ)
  let b : ℚ := ((p.2.2 : ℕ) : ℚ)
  let gray := (r + g + b) / 3
  (r - gray) ^ 2 + (g - gray) ^ 2 + (b - gray) ^ 2

/-- Maximum of a nonempty list given as head and tail. -/
def listMax (x : ℚ) (xs : List ℚ) : ℚ := xs.foldl max x

/-- Index of the most vibrant pixel: np.argmax returns the first index
attaining the maximum of the value list. -/
def vibrantIdx (f : Pixel → ℚ) (p0 : Pixel) (rest : List Pixel) : ℕ :=
  ((p0 :: rest).map f).indexOf (listMax (f p0) (rest.map f))

/-- Two-digit uppercase hex rendering of a byte, as the 02X format
spec renders values below 256. -/
def hexByte (v : ℕ) : Bytes := [hexDigit (v / 16), hexDigit (v % 16)]

/-- Hash sign followed by the three channels in two-digit uppercase
hex, as the format string in get_color renders them (35 is the hash
sign byte). -/
def hexColor (p : Pixel) : Bytes :=
  35 :: (hexByte (p.1 : ℕ) ++ hexByte (p.2.1 : ℕ) ++ hexByte (p.2.2 : ℕ))

def pxDefault : Pixel := (0, 0, 0)

/-- get_color from src/scripts/main.py.  The argument is the content of
the cover file if it exists (none when os.path.exists fails).  The getD
default is never reached: the index is always in range (proved in
get_color_first_float_max). -/
def get_color (cover : Option Img) : Bytes :=
  match cover with
  | none => strBytes "NO_COLOR"
  | some img =>
      hexColor ((pixelList img).getD (vibrantIdx flVibrancy img.px0 img.rest) pxDefault)

/-- Modelled from the spec: get_color as claim C1 reads it, selecting
the first pixel maximizing the exact-arithmetic vibrancy. -/
def get_color_spec (img : Img) : Bytes :=
  hexColor ((pixelList img).getD (vibrantIdx vibrancySpec img.px0 img.rest) pxDefault)

/-- Uppercase-hex-digit test for the format part of claim C1. -/
def isUpperHexDigit (c : ℕ) : Bool := (48 ≤ c && c ≤ 57) || (65 ≤ c && c ≤ 70)

/-- A hash sign followed by exactly six uppercase hex digits. -/
def isHexFormat (s : Bytes) : Bool :=
  match s with
  | 35 :: rest => rest.length == 6 && rest.all isUpperHexDigit
  | _ => false

/-! ### The text-color rule (get_text_color) -/

/-- Value of one hex digit byte, as accepted by int(-, 16). -/
def hexDigitVal (c : ℕ) : Option ℕ :=
  if 48 ≤ c ∧ c ≤ 57 then some (c - 48)
  else if 65 ≤ c ∧ c ≤ 70 then some (c - 55)
  else if 97 ≤ c ∧ c ≤ 102 then some (c - 87)
  else none

/-- int(s, 16) on the strings the pipeline produces: empty or non-hex
input raises ValueError (returns none here). -/
def parseHex (l : Bytes) : Option ℕ :=
  if l = [] then none
  else l.foldl (fun acc c => acc.bind fun a => (hexDigitVal c).map fun d => 16 * a + d) (some 0)

/-- The float64 value of the literal 0.299. -/
def lum299 : ℚ := fl (299 / 1000)

/-- The float64 value of the literal 0.587. -/
def lum587 : ℚ := fl (587 / 1000)

/-- The float64 value of the literal 0.114. -/
def lum114 : ℚ := fl (114 / 1000)

/-- The luminance as the code computes it in float64:
(0.299 * r + 0.587 * g + 0.114 * b) / 255 with every operation
rounded.  The comparison against 0.5 afterwards is exact because 0.5
is a binary64 value. -/
def flLuminance (r g b : ℕ) : ℚ :=
  fdiv (fadd (fadd (fmul lum299 (r : ℚ)) (fmul lum587 (g : ℚ))) (fmul lum114 (b : ℚ))) 255

/-- Modelled from the spec: the exact relative luminance of claim C2,
(0.299 R + 0.587 G + 0.114 B) / 255. -/
def luminanceSpec (r g b : ℕ) : ℚ :=
  (0.299 * (r : ℚ) + 0.587 * (g : ℚ) + 0.114 * (b : ℚ)) / 255

/-- Python-level exceptions the pipeline can raise. -/
inductive PyExn where
  | indexError
  | valueError
  | decodeError
  | netError
deriving DecidableEq

/-- get_text_color from src/scripts/main.py: black for the NO_COLOR
sentinel, otherwise parse the three channel byte pairs and compare the
float64 luminance against 0.5. -/
def get_text_color (s : Bytes) : Except PyExn Bytes :=
  if s = strBytes "NO_COLOR" then .ok (strBytes "#000000")
  else
    match parseHex ((s.drop 1).take 2), parseHex ((s.drop 3).take 2),
        parseHex ((s.drop 5).take 2) with
    | some r, some g, some b =>
        .ok (if flLuminance r g b < 1/2 then strBytes "#FFFFFF" else strBytes "#000000")
    | _, _, _ => .error .valueError

/-! ### The output record and the response assembler (generate_output) -/

/-- The NO_COLOR sentinel. -/
def noColorStr : Bytes := strBytes "NO_COLOR"

/-- Black text color. -/
def textBlack : Bytes := strBytes "#000000"

/-- White text color. -/
def textWhite : Bytes := strBytes "#FFFFFF"

/-- Error message for a YouTube link that is not a Shorts link. -/
def msgOnlyShorts : Bytes := strBytes "Only YouTube SHORTS links are supported at the moment."

/-- Error message recorded when the downloader raises. -/
def msgInvalidUrl : Bytes :=
  strBytes "Invalid URL. Please enter a valid TikTok, Instagram Reels, or YouTube Shorts URL."

/-- Error message recorded when no fingerprint match is found. -/
def msgNoSong : Bytes := strBytes "NO_SONG_FOUND"

/-- The dictionary generate_output returns: either the full success
record or the single-error failure record.  The constructor shape makes
the all-or-nothing property of claim C8 a typing fact. -/
inductive Output where
  | record (title artist : Bytes) (cover : Bool) (color text_color spotify youtube apple : Bytes)
  | failure (error : Bytes)
deriving DecidableEq

/-- Python truthiness of an optional string: None and the empty string
are falsy. -/
def pyTruthy : Option Bytes → Bool
  | none => false
  | some s => !s.isEmpty

/-- generate_output from src/scripts/main.py.  Reading error[0] from an
empty list raises IndexError; get_text_color may raise ValueError on a
malformed color (never on pipeline-produced colors). -/
def generate_output (title artist : Option Bytes) (cover : Bool) (color : Bytes)
    (error : List Bytes) : Except PyExn Output :=
  if pyTruthy title && pyTruthy artist then
    let t := title.getD []
    let a := artist.getD []
    let urls := get_song_urls t a
    match get_text_color color with
    | .ok text_color => .ok (.record t a cover color text_color urls.1 urls.2.1 urls.2.2)
    | .error e => .error e
  else
    match error with
    | [] => .error .indexError
    | e :: _ => .ok (.failure e)

/-! ### External collaborators as oracles, and the observable events -/

/-- One entry of the metadata.music list in the ACRCloud response. -/
structure SongEntry where
  title : Bytes
  artists : List Bytes
deriving DecidableEq

/-- Outcome of the ACRCloud identify call in recognize_song:
requests.post can raise (netError), response.json() can raise
(parseError), or the response parses, with metadata.music either absent
(none) or present with its list of entries. -/
inductive AcrOutcome where
  | netError
  | parseError
  | parsed (music : Option (List SongEntry))
deriving DecidableEq

/-- Outcome of the iTunes search call in get_album_cover: requests.get
or raise_for_status raises a RequestException (reqError),
response.json() raises (parseError), or the response parses into
resultCount and the results list, each entry carrying its optional
artworkUrl100 value. -/
inductive ItunesOutcome where
  | reqError
  | parseError
  | parsed (resultCount : ℕ) (results : List (Option Bytes))
deriving DecidableEq

/-- The external world one pipeline run interacts with: the IG_COOKIES
environment variable, whether yt-dlp succeeds, the two HTTP oracles,
whether the artwork image downloads (imageFetchOk: a false value is a
RequestException from requests.get or raise_for_status) and decodes
(imageOpenOk: a false value is a non-request exception from
PIL.Image.open), the decoded fetched image, and the artwork file a
previous run may have left at the shared path. -/
structure World where
  igCookies : Option Bytes
  dlOk : Bool
  acr : AcrOutcome
  itunes : ItunesOutcome
  imageFetchOk : Bool
  imageOpenOk : Bool
  fetchedImg : Img
  coverFile : Option Img
deriving DecidableEq

/-- Observable events of one pipeline run, in order. -/
inductive Ev where
  | cookiesWrite
  | dlInvoke
  | cookiesRemove
  | acrPost
  | wavRemove
  | itunesCall
  | imageFetch
  | coverSave
  | colorAnalyze
deriving DecidableEq

/-- download_video from src/scripts/main.py: the YouTube-family check
happens before anything else; the cookies file is written before the
downloader runs and removed only after a successful download; a
downloader failure is caught and recorded as the invalid-URL message.
Returns the updated error list and the events performed. -/
def download_video (url : Bytes) (error : List Bytes) (w : World) : List Bytes × List Ev :=
  if (strBytes "youtube.com" <:+: url ∨ strBytes "youtu.be" <:+: url) ∧
      ¬ strBytes "shorts" <:+: url then
    (error ++ [msgOnlyShorts], [])
  else
    let cookieEv : List Ev := if pyTruthy w.igCookies then [.cookiesWrite] else []
    if w.dlOk then
      (error, cookieEv ++ [.dlInvoke] ++ (if pyTruthy w.igCookies then [.cookiesRemove] else []))
    else
      (error ++ [msgInvalidUrl], cookieEv ++ [.dlInvoke])

/-- recognize_song from src/scripts/main.py.  The request signing is
abstracted into the oracle.  os.remove on the WAV file runs after
response.json() succeeds and before the metadata check; a network or
parse failure propagates out before the removal.  An empty
metadata.music list or an entry with an empty artists list raises
IndexError (after the removal). -/
def recognize_song (error : List Bytes) (w : World) :
    Except PyExn (Option Bytes × Option Bytes × List Bytes) × List Ev :=
  match w.acr with
  | .netError => (.error .netError, [.acrPost])
  | .parseError => (.error .valueError, [.acrPost])
  | .parsed music =>
    match music with
    | none => (.ok (none, none, error ++ [msgNoSong]), [.acrPost, .wavRemove])
    | some [] => (.error .indexError, [.acrPost, .wavRemove])
    | some (song :: _) =>
      match song.artists with
      | [] => (.error .indexError, [.acrPost, .wavRemove])
      | a :: _ => (.ok (some song.title, some a, error), [.acrPost, .wavRemove])

/-- str.replace: replace every non-overlapping occurrence of pat by
rep, scanning left to right (the empty-pattern case never arises at
the call site and is treated as no occurrence to keep the recursion
well founded). -/
def replaceAll (pat rep : Bytes) : Bytes → Bytes
  | [] => []
  | c :: rest =>
    if h : pat ≠ [] ∧ pat.isPrefixOf (c :: rest) then
      rep ++ replaceAll pat rep ((c :: rest).drop pat.length)
    else
      c :: replaceAll pat rep rest
termination_by l => l.length
decreasing_by
  · have hp : 0 < pat.length := List.length_pos.mpr h.1
    simp [List.length_drop]
    omega
  · simp

/-- get_album_cover from src/scripts/main.py.  Only
requests.RequestException is caught (returning False); a JSON parse
error or an out-of-range index propagates.  When resultCount is
positive the artworkUrl100 of the first entry (empty string when the key is
absent) has its resolution token rewritten; an empty URL falls through
to the no-cover return.  Returns True exactly when the image was
fetched, decoded, resized and saved. -/
def get_album_cover (title artist : Option Bytes) (w : World) : Except PyExn Bool × List Ev :=
  match w.itunes with
  | .reqError => (.ok false, [.itunesCall])
  | .parseError => (.error .valueError, [.itunesCall])
  | .parsed resultCount results =>
    if 0 < resultCount then
      match results with
      | [] => (.error .indexError, [.itunesCall])
      | entry :: _ =>
        let album_cover_url :=
          replaceAll (strBytes "100x100bb") (strBytes "1200x1200bb") (entry.getD [])
        if album_cover_url.isEmpty then (.ok false, [.itunesCall])
        else if w.imageFetchOk then
          if w.imageOpenOk then (.ok true, [.itunesCall, .imageFetch, .coverSave])
          else (.error .decodeError, [.itunesCall, .imageFetch])
        else (.ok false, [.itunesCall, .imageFetch])
    else (.ok false, [.itunesCall])

/-- main from src/scripts/main.py: download, then, only if the error
list is still empty, recognize, fetch the artwork and analyze the
color, and finally assemble the output.  The artwork file read by
get_color is the freshly saved image when get_album_cover returned
True and whatever the shared path held before otherwise.  Uncaught
exceptions from the stages propagate (the HTTP front end maps them to
a 500 response).  Named pipelineMain because Lean reserves main for
program entry points. -/
def pipelineMain (url : Bytes) (w : World) : Except PyExn Output × List Ev :=
  let dl := download_video url [] w
  if dl.1.length = 0 then
    match recognize_song dl.1 w with
    | (.error e, tr) => (.error e, dl.2 ++ tr)
    | (.ok (t, a, err2), tr) =>
      match get_album_cover t a w with
      | (.error e, tr2) => (.error e, dl.2 ++ tr ++ tr2)
      | (.ok cover, tr2) =>
        let file := if cover then some w.fetchedImg else w.coverFile
        let color := get_color file
        (generate_output t a cover color err2, dl.2 ++ tr ++ tr2 ++ [.colorAnalyze])
  else
    (generate_output none none false noColorStr dl.1, dl.2)

/-! ### Demo inputs for witnesses and counterexamples -/

deriving instance DecidableEq for Except

/-- One-pixel placeholder image. -/
def imgOne : Img := ⟨(0, 0, 0), []⟩

/-- Two exactly-tied pixels whose float64 vibrancies differ by one ulp:
both have exact vibrancy 14/3, but the second evaluates one ulp higher
in float64. -/
def pxA : Pixel := (0, 3, 1)

/-- See pxA. -/
def pxB : Pixel := (0, 1, 3)

/-- The two-pixel image exhibiting the float tie-break of claim C1. -/
def imgTie : Img := ⟨pxA, [pxB]⟩

/-- A TikTok URL (not YouTube-family). -/
def urlTik : Bytes := strBytes "https://www.tiktok.com/@user/video/7123456789"

/-- A YouTube URL that is not a Shorts URL. -/
def urlWatch : Bytes := strBytes "https://www.youtube.com/watch?v=dQw4w9WgXcQ"

/-- Baseline world: no cookies, downloader succeeds, no fingerprint
match, iTunes request fails, no prior cover file. -/
def wBase : World :=
  { igCookies := none, dlOk := true, acr := .parsed none, itunes := .reqError,
    imageFetchOk := false, imageOpenOk := false, fetchedImg := imgOne, coverFile := none }

/-- World where the ACRCloud post raises a network error. -/
def wNet : World := { wBase with acr := .netError }

/-- World with a cookie blob present and a failing downloader. -/
def wCookieFail : World := { wBase with igCookies := some (strBytes "sessionid=abc"), dlOk := false }

/-- World where recognition succeeds. -/
def wFound : World :=
  { wBase with acr := .parsed (some [⟨strBytes "Song", [strBytes "Artist"]⟩]) }

/-! ### Helper lemmas -/

theorem itunesCall_mem_album_trace (title artist : Option Bytes) (w : World) :
    Ev.itunesCall ∈ (get_album_cover title artist w).2 := by
  unfold get_album_cover
  rcases w.itunes with _ | _ | ⟨n, results⟩
  · simp
  · simp
  · by_cases h : 0 < n
    · simp only [if_pos h]
      rcases results with _ | ⟨entry, rest⟩
      · simp
      · split_ifs <;> simp <;> split_ifs <;> simp
    · simp [h]

/-! ### Claim C10: the failure branch needs a nonempty error list -/

/-- C10: when title or artist is absent (falsy) and the accumulated
error list is empty, generate_output raises IndexError reading
error[0]; callers must have recorded at least one error before this
branch. -/
theorem generate_output_empty_error_raises (title artist : Option Bytes) (cover : Bool)
    (color : Bytes) (h : (pyTruthy title && pyTruthy artist) = false) :
    generate_output title artist cover color [] = .error .indexError := by
  simp [generate_output, h]

/-- Witness for C10 at a concrete input. -/
theorem generate_output_empty_error_raises_witness :
    generate_output none none false noColorStr [] = .error .indexError :=
  generate_output_empty_error_raises none none false noColorStr (by rfl)

/-! ### Claim C9: artwork fetch failures are non-fatal -/

/-- C9: get_album_cover returns False without raising when the iTunes
request fails (network error or non-2xx status via raise_for_status),
when the search result is empty (resultCount equal to zero), and when
the artwork image download fails. -/
theorem get_album_cover_http_failures (title artist : Option Bytes) (w : World) :
    (w.itunes = .reqError → (get_album_cover title artist w).1 = .ok false) ∧
    (∀ results, w.itunes = .parsed 0 results → (get_album_cover title artist w).1 = .ok false) ∧
    (∀ n entry rest, w.itunes = .parsed n (entry :: rest) → w.imageFetchOk = false →
      (get_album_cover title artist w).1 = .ok false) := by
  refine ⟨?_, ?_, ?_⟩
  · intro h
    simp [get_album_cover, h]
  · intro results h
    simp [get_album_cover, h]
  · intro n entry rest h hf
    simp only [get_album_cover, h, hf]
    split_ifs <;> simp_all

/-- Witness for C9 at a concrete input. -/
theorem get_album_cover_http_failures_witness :
    (get_album_cover (some (strBytes "Song")) (some (strBytes "Artist")) wBase).1 = .ok false :=
  (get_album_cover_http_failures (some (strBytes "Song")) (some (strBytes "Artist")) wBase).1 rfl

/-! ### Claim C8: the output record is all-or-nothing -/

/-- C8: with both title and artist truthy, generate_output returns
exactly the full success record (title, artist, cover flag, color,
text color and the three search URLs); with either absent it returns
exactly the failure record carrying the first recorded error; no other
shape is possible. -/
theorem generate_output_all_or_nothing (title artist : Option Bytes) (cover : Bool)
    (color : Bytes) (tc e : Bytes) (es : List Bytes)
    (htc : get_text_color color = .ok tc) :
    generate_output title artist cover color (e :: es) =
      if pyTruthy title && pyTruthy artist then
        .ok (.record (title.getD []) (artist.getD []) cover color tc
          (get_song_urls (title.getD []) (artist.getD [])).1
          (get_song_urls (title.getD []) (artist.getD [])).2.1
          (get_song_urls (title.getD []) (artist.getD [])).2.2)
      else .ok (.failure e) := by
  cases hb : pyTruthy title && pyTruthy artist <;> simp [generate_output, hb, htc]

/-- Witness for C8 at a concrete input. -/
theorem generate_output_all_or_nothing_witness :
    generate_output (some (strBytes "Song")) (some (strBytes "Artist")) true noColorStr
        [msgNoSong] =
      if pyTruthy (some (strBytes "Song")) && pyTruthy (some (strBytes "Artist")) then
        .ok (.record ((some (strBytes "Song")).getD []) ((some (strBytes "Artist")).getD [])
          true noColorStr textBlack
          (get_song_urls ((some (strBytes "Song")).getD []) ((some (strBytes "Artist")).getD [])).1
          (get_song_urls ((some (strBytes "Song")).getD []) ((some (strBytes "Artist")).getD [])).2.1
          (get_song_urls ((some (strBytes "Song")).getD []) ((some (strBytes "Artist")).getD [])).2.2)
      else .ok (.failure msgNoSong) :=
  generate_output_all_or_nothing (some (strBytes "Song")) (some (strBytes "Artist")) true
    noColorStr textBlack msgNoSong [] (by rfl)

/-! ### Claim C5: WAV removal and the identify call -/

/-- C5 counterexample: with a network failure on the identify call the
recognizer is invoked (the post happens) but the WAV file is never
removed, against the claim that removal happens regardless of network
outcome. -/
theorem recognize_song_netfail_keeps_wav :
    Ev.acrPost ∈ (recognize_song [] wNet).2 ∧
      Ev.wavRemove ∉ (recognize_song [] wNet).2 := by decide

/-- C5 amended: the WAV file is removed exactly when the identify call
returns and its body parses as JSON (both on a match and on a
parse-miss); when the post raises or the body fails to parse, the
exception propagates first and the file is not removed. -/
theorem recognize_song_wav_removal (error : List Bytes) (w : World) :
    (∀ m, w.acr = .parsed m → Ev.wavRemove ∈ (recognize_song error w).2) ∧
    ((w.acr = .netError ∨ w.acr = .parseError) →
      Ev.wavRemove ∉ (recognize_song error w).2) := by
  constructor
  · intro m hm
    rcases m with _ | ⟨_ | ⟨song, rest⟩⟩
    · simp [recognize_song, hm]
    · simp [recognize_song, hm]
    · rcases harts : song.artists with _ | ⟨a, as⟩ <;> simp [recognize_song, hm, harts]
  · intro h
    rcases h with h | h <;> simp [recognize_song, h]

/-- Witness for C5 (amended) at a concrete input. -/
theorem recognize_song_wav_removal_witness :
    Ev.wavRemove ∈ (recognize_song [] wBase).2 :=
  (recognize_song_wav_removal [] wBase).1 none rfl

/-! ### Claim C6: cookie-file cleanup -/

/-- C6 counterexample: with a cookie blob present and a failing
download, the temporary cookie file is written but never removed,
against the claim that it is removed regardless of outcome. -/
theorem download_video_cookie_leak :
    Ev.cookiesWrite ∈ (download_video urlTik [] wCookieFail).2 ∧
      Ev.cookiesRemove ∉ (download_video urlTik [] wCookieFail).2 := by decide

/-- C6 amended: when a cookie file is created (truthy IG_COOKIES) and
the URL passes the YouTube check, the file is removed when the
download succeeds and is left behind when the downloader raises. -/
theorem download_video_cookie_cleanup (url : Bytes) (error : List Bytes) (w : World)
    (hck : pyTruthy w.igCookies = true)
    (hrej : ¬ ((strBytes "youtube.com" <:+: url ∨ strBytes "youtu.be" <:+: url) ∧
      ¬ strBytes "shorts" <:+: url)) :
    (w.dlOk = true → Ev.cookiesWrite ∈ (download_video url error w).2 ∧
      Ev.cookiesRemove ∈ (download_video url error w).2) ∧
    (w.dlOk = false → Ev.cookiesWrite ∈ (download_video url error w).2 ∧
      Ev.cookiesRemove ∉ (download_video url error w).2) := by
  constructor
  · intro h
    simp [download_video, if_neg hrej, hck, h]
  · intro h
    simp [download_video, if_neg hrej, hck, h]

/-- Witness for C6 (amended) at a concrete input. -/
theorem download_video_cookie_cleanup_witness :
    Ev.cookiesWrite ∈ (download_video urlTik [] { wBase with igCookies := some (strBytes "sessionid=abc") }).2 ∧
      Ev.cookiesRemove ∈ (download_video urlTik [] { wBase with igCookies := some (strBytes "sessionid=abc") }).2 :=
  (download_video_cookie_cleanup urlTik [] { wBase with igCookies := some (strBytes "sessionid=abc") }
    (by rfl) (by decide)).1 rfl

/-! ### Claim C3: non-Shorts YouTube URLs are rejected before extraction -/

/-- C3: for a YouTube-family URL without a shorts marker, the pipeline
returns the failure record carrying the only-Shorts message and the
downloader is never invoked. -/
theorem youtube_non_shorts_rejected (url : Bytes) (w : World)
    (hyt : strBytes "youtube.com" <:+: url ∨ strBytes "youtu.be" <:+: url)
    (hsh : ¬ strBytes "shorts" <:+: url) :
    (pipelineMain url w).1 = .ok (.failure msgOnlyShorts) ∧
      Ev.dlInvoke ∉ (pipelineMain url w).2 := by
  have hdl : download_video url [] w = ([msgOnlyShorts], []) := by
    unfold download_video
    rw [if_pos ⟨hyt, hsh⟩]
    simp
  constructor
  · simp [pipelineMain, hdl, generate_output, pyTruthy]
  · simp [pipelineMain, hdl]

/-- Witness for C3 at a concrete input. -/
theorem youtube_non_shorts_rejected_witness :
    (pipelineMain urlWatch wBase).1 = .ok (.failure msgOnlyShorts) ∧
      Ev.dlInvoke ∉ (pipelineMain urlWatch wBase).2 :=
  youtube_non_shorts_rejected urlWatch wBase (by decide) (by decide)

/-! ### Claim C4: recognition failure and the later stages -/

/-- C4 counterexample: in a run where recognition finds no song (the
output is the NO_SONG_FOUND failure record), the artwork fetcher and
the color analyzer are both still invoked, against the claimed
short-circuit. -/
theorem recognition_failure_still_runs_stages :
    wBase.acr = .parsed none ∧
    (pipelineMain urlTik wBase).1 = .ok (.failure msgNoSong) ∧
    Ev.itunesCall ∈ (pipelineMain urlTik wBase).2 ∧
    Ev.colorAnalyze ∈ (pipelineMain urlTik wBase).2 := by decide

/-- C4 amended: when recognition fails the pipeline still produces the
NO_SONG_FOUND failure record, but only after invoking the artwork
fetcher (with absent title and artist) and the color analyzer; the
stages are not short-circuited. -/
theorem recognition_failure_record_after_stages (url : Bytes) (w : World) (c : Bool)
    (hdl : (download_video url [] w).1 = [])
    (hacr : w.acr = .parsed none)
    (hart : (get_album_cover none none w).1 = .ok c) :
    (pipelineMain url w).1 = .ok (.failure msgNoSong) ∧
    Ev.itunesCall ∈ (pipelineMain url w).2 ∧
    Ev.colorAnalyze ∈ (pipelineMain url w).2 := by
  have hrec : recognize_song [] w = (.ok (none, none, [msgNoSong]), [.acrPost, .wavRemove]) := by
    simp [recognize_song, hacr]
  obtain ⟨res2, tr2, hga⟩ : ∃ r t, get_album_cover none none w = (r, t) := ⟨_, _, rfl⟩
  rw [hga] at hart
  simp only at hart
  subst hart
  have hmem := itunesCall_mem_album_trace none none w
  rw [hga] at hmem
  simp only at hmem
  unfold pipelineMain
  simp [hdl, hrec, hga, generate_output, pyTruthy, hmem]

/-- Witness for C4 (amended) at a concrete input. -/
theorem recognition_failure_record_after_stages_witness :
    (pipelineMain urlTik wBase).1 = .ok (.failure msgNoSong) ∧
    Ev.itunesCall ∈ (pipelineMain urlTik wBase).2 ∧
    Ev.colorAnalyze ∈ (pipelineMain urlTik wBase).2 :=
  recognition_failure_record_after_stages urlTik wBase false (by decide) rfl (by decide)

/-! ### Claim C7: the three search links and the encoded query

The key fact: the encoded query contains a percent byte (the space
between title and artist is always escaped), no URL prefix contains a
percent byte, and a string containing a byte its prefix lacks can
occur in prefix ++ string only at the position right after the
prefix. -/

theorem isPrefixOfB_iff (l1 l2 : Bytes) : l1.isPrefixOf l2 = true ↔ l1 <+: l2 :=
  List.isPrefixOf_iff_prefix

/-- If E ++ t = Q ++ E with Q nonempty, every byte of E occurs in Q
(E is periodic with period Q). -/
theorem append_overlap_subset :
    ∀ (n : ℕ) (E Q t : Bytes), E.length ≤ n → Q ≠ [] → E ++ t = Q ++ E →
      ∀ c ∈ E, c ∈ Q := by
  intro n
  induction n with
  | zero =>
    intro E Q t hlen _ _ c hc
    rw [Nat.le_zero, List.length_eq_zero] at hlen
    subst hlen
    simp at hc
  | succ n ih =>
    intro E Q t hlen hQ heq c hc
    by_cases hle : E.length ≤ Q.length
    · have h1 : (E ++ t).take E.length = E := List.take_left E t
      have h2 : (Q ++ E).take E.length = Q.take E.length ++ E.take (E.length - Q.length) :=
        List.take_append_eq_append_take
      rw [Nat.sub_eq_zero_of_le hle, List.take_zero, List.append_nil] at h2
      rw [heq] at h1
      have hEQ : E = Q.take E.length := h1.symm.trans h2
      rw [hEQ] at hc
      exact List.take_subset _ _ hc
    · push_neg at hle
      have h1 : (E ++ t).take Q.length = E.take Q.length ++ t.take (Q.length - E.length) :=
        List.take_append_eq_append_take
      rw [Nat.sub_eq_zero_of_le (le_of_lt hle), List.take_zero, List.append_nil] at h1
      have h2 : (Q ++ E).take Q.length = Q := List.take_left Q E
      rw [heq] at h1
      have hQE : E.take Q.length = Q := h1.symm.trans h2
      have hsplit : E = Q ++ E.drop Q.length := by
        conv_lhs => rw [← List.take_append_drop Q.length E]
        rw [hQE]
      have heqE : E.drop Q.length ++ t = E := by
        have hQcancel : Q ++ (E.drop Q.length ++ t) = Q ++ E := by
          calc Q ++ (E.drop Q.length ++ t) = (Q ++ E.drop Q.length) ++ t := by
                rw [List.append_assoc]
            _ = E ++ t := by rw [← hsplit]
            _ = Q ++ E := heq
        exact List.append_cancel_left hQcancel
      have heq1 : E.drop Q.length ++ t = Q ++ E.drop Q.length := by
        rw [heqE]
        exact hsplit
      have hlen1 : (E.drop Q.length).length ≤ n := by
        have hd := List.length_drop Q.length E
        have hQpos : 0 < Q.length := List.length_pos.mpr hQ
        omega
      rw [hsplit] at hc
      rcases List.mem_append.mp hc with hcQ | hcE1
      · exact hcQ
      · exact ih (E.drop Q.length) Q t hlen1 hQ heq1 c hcE1

/-- E occurs in P ++ E exactly at position P.length, provided E holds a
byte that P lacks. -/
theorem occursAt_iff (E P : Bytes) (c : ℕ) (hcE : c ∈ E) (hcP : c ∉ P) (p : ℕ) :
    E.isPrefixOf ((P ++ E).drop p) = true ↔ p = P.length := by
  rw [isPrefixOfB_iff]
  constructor
  · intro h
    rcases lt_trichotomy p P.length with hlt | heq | hgt
    · exfalso
      have hdrop : (P ++ E).drop p = P.drop p ++ E := by
        rw [List.drop_append_eq_append_drop, Nat.sub_eq_zero_of_le (le_of_lt hlt),
          List.drop_zero]
      rw [hdrop] at h
      obtain ⟨t, ht⟩ := h
      have hQ : P.drop p ≠ [] := by
        apply List.length_pos.mp
        rw [List.length_drop]
        omega
      have hsub := append_overlap_subset E.length E (P.drop p) t le_rfl hQ ht
      exact hcP (List.drop_subset _ _ (hsub c hcE))
    · exact heq
    · exfalso
      have hlenE : 0 < E.length := List.length_pos.mpr (List.ne_nil_of_mem hcE)
      have hdrop : (P ++ E).drop p = E.drop (p - P.length) := by
        rw [List.drop_append_eq_append_drop, List.drop_eq_nil_of_le (le_of_lt hgt),
          List.nil_append]
      rw [hdrop] at h
      have hle := h.length_le
      rw [List.length_drop] at hle
      omega
  · intro h
    subst h
    rw [List.drop_left]

/-- Occurrence count of E in P ++ E is exactly one when E holds a byte
that P lacks. -/
theorem countOccur_append_self (E P : Bytes) (c : ℕ) (hcE : c ∈ E) (hcP : c ∉ P) :
    countOccur E (P ++ E) = 1 := by
  unfold countOccur
  rw [← List.countP_eq_length_filter]
  have hcongr : ∀ p ∈ List.range ((P ++ E).length + 1),
      (E.isPrefixOf ((P ++ E).drop p) = true ↔ (p == P.length) = true) := by
    intro p _
    rw [occursAt_iff E P c hcE hcP p]
    simp
  rw [List.countP_congr hcongr]
  have hmem : P.length ∈ List.range ((P ++ E).length + 1) := by
    rw [List.mem_range, List.length_append]
    omega
  have hnd := List.nodup_range ((P ++ E).length + 1)
  calc (List.range ((P ++ E).length + 1)).countP (fun p => p == P.length)
      = (List.range ((P ++ E).length + 1)).count P.length := rfl
    _ = 1 := List.count_eq_one_of_mem hnd hmem

/-- C7: get_song_urls returns exactly the three search links (Spotify,
YouTube Music, Apple Music), each the fixed service prefix followed by
the percent-encoded "title artist" query, and the encoded query occurs
exactly once as a substring of each link. -/
theorem get_song_urls_three_links (title artist : Bytes) :
    get_song_urls title artist =
      (strBytes "https://open.spotify.com/search/" ++ quote (title ++ 32 :: artist),
       strBytes "https://music.youtube.com/search?q=" ++ quote (title ++ 32 :: artist),
       strBytes "https://music.apple.com/us/search?term=" ++ quote (title ++ 32 :: artist)) ∧
    countOccur (quote (title ++ 32 :: artist)) (get_song_urls title artist).1 = 1 ∧
    countOccur (quote (title ++ 32 :: artist)) (get_song_urls title artist).2.1 = 1 ∧
    countOccur (quote (title ++ 32 :: artist)) (get_song_urls title artist).2.2 = 1 := by
  have h37 : (37 : ℕ) ∈ quote (title ++ 32 :: artist) := by
    have h32 : (32 : ℕ) ∈ title ++ 32 :: artist := by simp
    have hq : (37 : ℕ) ∈ quoteByte 32 := by decide
    exact List.mem_flatMap.mpr ⟨32, h32, hq⟩
  refine ⟨rfl, ?_, ?_, ?_⟩
  · exact countOccur_append_self _ _ 37 h37 (by decide)
  · exact countOccur_append_self _ _ 37 h37 (by decide)
  · exact countOccur_append_self _ _ 37 h37 (by decide)

/-! ### Claim C2: the text-color rule -/

theorem hexDigitVal_hexDigit (d : ℕ) (h : d < 16) : hexDigitVal (hexDigit d) = some d := by
  unfold hexDigit hexDigitVal
  split_ifs <;> first | exact congrArg some (by omega) | omega

theorem parseHex_hexByte (v : ℕ) (h : v < 256) : parseHex (hexByte v) = some v := by
  have h1 : v / 16 < 16 := by omega
  have h2 : v % 16 < 16 := by omega
  unfold parseHex hexByte
  rw [if_neg (by simp)]
  simp [hexDigitVal_hexDigit _ h1, hexDigitVal_hexDigit _ h2]
  omega

theorem hexColor_length (p : Pixel) : (hexColor p).length = 7 := by
  simp [hexColor, hexByte]

theorem hexColor_ne_noColor (p : Pixel) : hexColor p ≠ strBytes "NO_COLOR" := by
  intro h
  have h7 := hexColor_length p
  rw [h] at h7
  exact absurd h7 (by decide)

/-- C2 amended: get_text_color returns black for the NO_COLOR sentinel;
otherwise, on the hex strings the analyzer produces, it parses the
three channels and returns white exactly when the float64 evaluation
of (0.299 R + 0.587 G + 0.114 B) / 255 compares below 0.5 (such as the
code performs); this agrees with the exact-luminance rule except at
inputs whose exact luminance is exactly 0.5, where rounding can give
white. -/
theorem get_text_color_float_rule :
    get_text_color noColorStr = .ok textBlack ∧
    ∀ r g b : Channel, get_text_color (hexColor (r, g, b)) =
      .ok (if flLuminance (r : ℕ) (g : ℕ) (b : ℕ) < 1/2 then textWhite else textBlack) := by
  constructor
  · rfl
  · intro r g b
    unfold get_text_color
    rw [if_neg (hexColor_ne_noColor (r, g, b))]
    have hdrop1 : ((hexColor (r, g, b)).drop 1).take 2 = hexByte (r : ℕ) := by
      simp [hexColor, hexByte]
    have hdrop3 : ((hexColor (r, g, b)).drop 3).take 2 = hexByte (g : ℕ) := by
      simp [hexColor, hexByte]
    have hdrop5 : ((hexColor (r, g, b)).drop 5).take 2 = hexByte (b : ℕ) := by
      simp [hexColor, hexByte]
    rw [hdrop1, hdrop3, hdrop5, parseHex_hexByte _ r.isLt, parseHex_hexByte _ g.isLt,
      parseHex_hexByte _ b.isLt]
    rfl

set_option maxRecDepth 8000 in
/-- C2 counterexample: the background 00CC44 has exact luminance
exactly 0.5, so the claim requires black text, but the float64
computation lands one ulp below 0.5 and the code returns white. -/
theorem text_color_boundary_mismatch :
    luminanceSpec 0 204 68 = 1/2 ∧
    ¬ luminanceSpec 0 204 68 < 1/2 ∧
    get_text_color (hexColor (0, 204, 68)) = .ok textWhite ∧
    textWhite ≠ textBlack := by
  have h12 : luminanceSpec 0 204 68 = 1/2 := by with_unfolding_all rfl
  refine ⟨h12, by rw [h12]; exact lt_irrefl _, ?_, by decide⟩
  with_unfolding_all rfl

/-! ### Claim C1: the most vibrant pixel -/

theorem listMax_mem : ∀ (xs : List ℚ) (x : ℚ), listMax x xs ∈ x :: xs := by
  intro xs
  induction xs with
  | nil =>
    intro x
    simp [listMax]
  | cons y ys ih =>
    intro x
    have hstep : listMax x (y :: ys) = listMax (max x y) ys := rfl
    rw [hstep]
    rcases List.mem_cons.mp (ih (max x y)) with h1 | h1
    · rcases max_choice x y with hm | hm
      · rw [h1, hm]
        exact List.mem_cons_self _ _
      · rw [h1, hm]
        exact List.mem_cons_of_mem _ (List.mem_cons_self _ _)
    · exact List.mem_cons_of_mem _ (List.mem_cons_of_mem _ h1)

theorem le_listMax : ∀ (xs : List ℚ) (x a : ℚ), a ∈ x :: xs → a ≤ listMax x xs := by
  intro xs
  induction xs with
  | nil =>
    intro x a ha
    rcases List.mem_cons.mp ha with h | h
    · simp [listMax, h]
    · simp at h
  | cons y ys ih =>
    intro x a ha
    have hstep : listMax x (y :: ys) = listMax (max x y) ys := rfl
    rw [hstep]
    rcases List.mem_cons.mp ha with h | h
    · rw [h]
      exact le_trans (le_max_left x y) (ih (max x y) (max x y) (List.mem_cons_self _ _))
    · rcases List.mem_cons.mp h with h2 | h2
      · rw [h2]
        exact le_trans (le_max_right x y) (ih (max x y) (max x y) (List.mem_cons_self _ _))
      · exact ih (max x y) a (List.mem_cons_of_mem _ h2)

theorem get_ne_of_lt_indexOf :
    ∀ (l : List ℚ) (a : ℚ) (j : ℕ) (hj : j < l.length), j < l.indexOf a →
      l.get ⟨j, hj⟩ ≠ a := by
  intro l
  induction l with
  | nil =>
    intro a j hj
    simp at hj
  | cons x xs ih =>
    intro a j hj hlt
    cases j with
    | zero =>
      intro heq
      simp only [List.get] at heq
      have h0 : (x :: xs).indexOf a = 0 := by
        rw [← heq]
        exact List.indexOf_cons_self _ _
      omega
    | succ j =>
      have hxa : (x == a) = false := by
        cases hb : x == a
        · rfl
        · exfalso
          have h0 : (x :: xs).indexOf a = 0 := by
            simp [List.indexOf_cons, hb]
          omega
      have hrec : (x :: xs).indexOf a = xs.indexOf a + 1 := by
        simp [List.indexOf_cons, hxa]
      have hj2 : j < xs.length := by simpa using hj
      have hne := ih a j hj2 (by omega)
      simpa using hne

theorem isUpperHexDigit_hexDigit (d : ℕ) (h : d < 16) : isUpperHexDigit (hexDigit d) = true := by
  unfold hexDigit isUpperHexDigit
  split_ifs <;> simp <;> omega

theorem isHexFormat_hexColor (p : Pixel) : isHexFormat (hexColor p) = true := by
  obtain ⟨r, g, b⟩ := p
  have hr := r.isLt
  have hg := g.isLt
  have hb := b.isLt
  have d1 := isUpperHexDigit_hexDigit ((r : ℕ) / 16) (by omega)
  have d2 := isUpperHexDigit_hexDigit ((r : ℕ) % 16) (by omega)
  have d3 := isUpperHexDigit_hexDigit ((g : ℕ) / 16) (by omega)
  have d4 := isUpperHexDigit_hexDigit ((g : ℕ) % 16) (by omega)
  have d5 := isUpperHexDigit_hexDigit ((b : ℕ) / 16) (by omega)
  have d6 := isUpperHexDigit_hexDigit ((b : ℕ) % 16) (by omega)
  simp [isHexFormat, hexColor, hexByte, d1, d2, d3, d4, d5, d6]

theorem vibrantIdx_spec (f : Pixel → ℚ) (p0 : Pixel) (rest : List Pixel) :
    vibrantIdx f p0 rest < (p0 :: rest).length ∧
    (∀ j, j < (p0 :: rest).length →
      f ((p0 :: rest).getD j pxDefault) ≤ f ((p0 :: rest).getD (vibrantIdx f p0 rest) pxDefault)) ∧
    (∀ j, j < vibrantIdx f p0 rest →
      f ((p0 :: rest).getD j pxDefault) < f ((p0 :: rest).getD (vibrantIdx f p0 rest) pxDefault)) := by
  have hmem : listMax (f p0) (rest.map f) ∈ (p0 :: rest).map f := by
    rw [List.map_cons]
    exact listMax_mem _ _
  have hle : ∀ v ∈ (p0 :: rest).map f, v ≤ listMax (f p0) (rest.map f) := by
    rw [List.map_cons]
    exact fun v hv => le_listMax _ _ _ hv
  have hidx : ((p0 :: rest).map f).indexOf (listMax (f p0) (rest.map f)) <
      ((p0 :: rest).map f).length :=
    List.indexOf_lt_length.mpr hmem
  have hlen : ((p0 :: rest).map f).length = (p0 :: rest).length := List.length_map _ _
  have hvi : vibrantIdx f p0 rest =
      ((p0 :: rest).map f).indexOf (listMax (f p0) (rest.map f)) := rfl
  have hi : vibrantIdx f p0 rest < (p0 :: rest).length := by
    rw [hvi]
    omega
  have hgi : ((p0 :: rest).map f).get ⟨vibrantIdx f p0 rest, by rw [hvi]; exact hidx⟩ =
      listMax (f p0) (rest.map f) := by
    rw [List.get_eq_getElem]
    exact List.getElem_indexOf hidx
  have hval : ∀ (j : ℕ) (hj : j < (p0 :: rest).length),
      ((p0 :: rest).map f).get ⟨j, by omega⟩ = f ((p0 :: rest).getD j pxDefault) := by
    intro j hj
    rw [List.get_eq_getElem, List.getElem_map, List.getD_eq_getElem _ _ hj]
  refine ⟨hi, ?_, ?_⟩
  · intro j hj
    have h1 := hval j hj
    have h2 := hval (vibrantIdx f p0 rest) hi
    rw [← h1, ← h2, hgi]
    exact hle _ (List.get_mem _ _ _)
  · intro j hjlt
    have hj : j < (p0 :: rest).length := by omega
    have h1 := hval j hj
    have h2 := hval (vibrantIdx f p0 rest) hi
    have hne : ((p0 :: rest).map f).get ⟨j, by omega⟩ ≠ listMax (f p0) (rest.map f) := by
      apply get_ne_of_lt_indexOf
      rw [← hvi]
      exact hjlt
    have hlej : ((p0 :: rest).map f).get ⟨j, by omega⟩ ≤ listMax (f p0) (rest.map f) :=
      hle _ (List.get_mem _ _ _)
    rw [← h1, ← h2, hgi]
    exact lt_of_le_of_ne hlej hne

/-- C1 amended: get_color on an existing image returns the hex string
of the pixel at the first index maximizing the float64-evaluated
vibrancy (the computation numpy performs); earlier pixels have
strictly smaller float64 vibrancy, all pixels have at most the
selected float64 vibrancy, and the result is a hash sign followed by
six uppercase hex digits.  This differs from exact-arithmetic
vibrancy maximization only at exact ties, where rounding decides. -/
theorem get_color_first_float_max (img : Img) :
    ∃ i, i < (pixelList img).length ∧
      get_color (some img) = hexColor ((pixelList img).getD i pxDefault) ∧
      (∀ j, j < (pixelList img).length →
        flVibrancy ((pixelList img).getD j pxDefault) ≤
          flVibrancy ((pixelList img).getD i pxDefault)) ∧
      (∀ j, j < i →
        flVibrancy ((pixelList img).getD j pxDefault) <
          flVibrancy ((pixelList img).getD i pxDefault)) ∧
      isHexFormat (get_color (some img)) = true := by
  obtain ⟨hlt, hle, hstrict⟩ := vibrantIdx_spec flVibrancy img.px0 img.rest
  exact ⟨vibrantIdx flVibrancy img.px0 img.rest, hlt, rfl, hle, hstrict,
    isHexFormat_hexColor _⟩

/-- Witness for C1 (amended) at a concrete image. -/
theorem get_color_first_float_max_witness :
    ∃ i, i < (pixelList imgOne).length ∧
      get_color (some imgOne) = hexColor ((pixelList imgOne).getD i pxDefault) ∧
      (∀ j, j < (pixelList imgOne).length →
        flVibrancy ((pixelList imgOne).getD j pxDefault) ≤
          flVibrancy ((pixelList imgOne).getD i pxDefault)) ∧
      (∀ j, j < i →
        flVibrancy ((pixelList imgOne).getD j pxDefault) <
          flVibrancy ((pixelList imgOne).getD i pxDefault)) ∧
      isHexFormat (get_color (some imgOne)) = true :=
  get_color_first_float_max imgOne

set_option maxRecDepth 8000 in
/-- C1 counterexample: the pixels (0,3,1) and (0,1,3) have the same
exact vibrancy 14/3, so the claim requires the first of the two to be
selected, but their float64 vibrancies differ by one ulp and numpy
selects the second: get_color returns the hex of pixel (0,1,3) while
the spec reading (first pixel of maximal exact vibrancy) gives the hex
of pixel (0,3,1). -/
theorem get_color_float_tie_break :
    vibrancySpec pxA = vibrancySpec pxB ∧
    get_color (some imgTie) = hexColor pxB ∧
    get_color_spec imgTie = hexColor pxA ∧
    get_color (some imgTie) ≠ get_color_spec imgTie := by
  have hv0 : flVibrancy pxA = 2627099782632789 / 562949953421312 := by
    with_unfolding_all rfl
  have hv1 : flVibrancy pxB = 5254199565265579 / 1125899906842624 := by
    with_unfolding_all rfl
  have hlt : (2627099782632789 / 562949953421312 : ℚ) < 5254199565265579 / 1125899906842624 := by
    norm_num
  have hsA : vibrancySpec pxA = 14/3 := by with_unfolding_all rfl
  have hsB : vibrancySpec pxB = 14/3 := by with_unfolding_all rfl
  have hq01 : ((2627099782632789 / 562949953421312 : ℚ) ==
      (5254199565265579 / 1125899906842624 : ℚ)) = false :=
    beq_eq_false_iff_ne.mpr hlt.ne
  have hidxA : vibrantIdx flVibrancy pxA [pxB] = 1 := by
    unfold vibrantIdx listMax
    simp only [List.map_cons, List.map_nil, List.foldl_cons, List.foldl_nil]
    rw [hv0, hv1, max_eq_right hlt.le]
    simp [List.indexOf_cons, hq01]
  have hidxS : vibrantIdx vibrancySpec pxA [pxB] = 0 := by
    unfold vibrantIdx listMax
    simp only [List.map_cons, List.map_nil, List.foldl_cons, List.foldl_nil]
    rw [hsA, hsB, max_self]
    simp [List.indexOf_cons]
  have hgc : get_color (some imgTie) = hexColor pxB := by
    have h1 : get_color (some imgTie) =
        hexColor ((pixelList imgTie).getD (vibrantIdx flVibrancy pxA [pxB]) pxDefault) := rfl
    rw [h1, hidxA]
    rfl
  have hgs : get_color_spec imgTie = hexColor pxA := by
    have h1 : get_color_spec imgTie =
        hexColor ((pixelList imgTie).getD (vibrantIdx vibrancySpec pxA [pxB]) pxDefault) := rfl
    rw [h1, hidxS]
    rfl
  refine ⟨hsA.trans hsB.symm, hgc, hgs, ?_⟩
  rw [hgc, hgs]
  decide

/-- Witness for C2 (amended) at a concrete input. -/
theorem get_text_color_float_rule_witness :
    get_text_color (hexColor (0, 204, 68)) =
      .ok (if flLuminance ((0 : Channel) : ℕ) ((204 : Channel) : ℕ) ((68 : Channel) : ℕ) < 1/2
        then textWhite else textBlack) :=
  get_text_color_float_rule.2 0 204 68
